import Mathlib

/-!
Shallow embedding of `src/addon/globalPlugins/capitalSelectionIndicator.py`,
an NVDA add-on that patches the host's selection-change announcement with
capital-letter indicators for single characters.

Host primitives (NVDA itself: text-position intervals, the speech layer, the
synthesizer configuration) are external dependencies of the repository; they
are embedded here as explicit parameters or small models taken from the
design document's description of the host contract.
-/

namespace CapSel

/-- A single element of an NVDA speech sequence: either plain text or a
control directive (pitch change, pitch restore, beep cue). -/
inductive SpeechSegment where
  | text (s : String)
  | pitchCommand (offset : Int)
  | pitchReset
  | beepCommand
  deriving DecidableEq, Repr

/-- Whether a segment is plain text (no control directive). -/
def SpeechSegment.isText : SpeechSegment → Bool
  | .text _ => true
  | _ => false

/-- The characters contributed by one segment to the spoken phrase. -/
def SpeechSegment.spokenChars : SpeechSegment → List Char
  | .text s => s.data
  | _ => []

/-- Concatenation of the plain-text content of a speech sequence. -/
def sequenceText (seq : List SpeechSegment) : List Char :=
  seq.flatMap SpeechSegment.spokenChars

/-- Does the needle occur at the head of the haystack? -/
def listStartsWith : List Char → List Char → Bool
  | _, [] => true
  | [], _ :: _ => false
  | c :: cs, d :: ds => c == d && listStartsWith cs ds

/-- Split a character list at the first occurrence of `sep`
(Python's `template.split(sep, 1)` when `sep` occurs): returns the parts
before and after the first occurrence, or `none` when `sep` does not occur.
This models Python's `"%s" in template` test and one-shot `split`. -/
def findSub : List Char → List Char → Option (List Char × List Char)
  | [], sep => if sep.isEmpty then some ([], []) else none
  | c :: cs, sep =>
    if listStartsWith (c :: cs) sep then some ([], (c :: cs).drop sep.length)
    else
      match findSub cs sep with
      | some (b, a) => some (c :: b, a)
      | none => none

/-- Python's `sep in template` (substring containment). -/
def containsSub (t sep : String) : Bool :=
  (findSub t.data sep.data).isSome

/-- `_buildSpeechFromTemplate` from the source: build a speech sequence by
parsing a template string with a `%s` placeholder.  When the template has no
placeholder, the character sequence is followed by the whole template; when
it does, the (nonempty) text before and after the placeholder surround the
character sequence. -/
def _buildSpeechFromTemplate (template : String) (charSequence : List SpeechSegment) :
    List SpeechSegment :=
  match findSub template.data "%s".data with
  | none => charSequence ++ [SpeechSegment.text template]
  | some (before, after) =>
    (if before.isEmpty then [] else [SpeechSegment.text (String.mk before)]) ++
    charSequence ++
    (if after.isEmpty then [] else [SpeechSegment.text (String.mk after)])

/-- Python's `str.isupper()` for the strings this add-on passes to it:
true when the string has no lowercase cased character and at least one
cased character. -/
def pyIsUpper (s : String) : Bool :=
  s.data.all (fun c => !c.isLower) && s.data.any (fun c => c.isUpper || c.isLower)

/-- Modelled from the spec: the host synthesizer abstraction.  `name` keys
the per-voice configuration; `supportsPitchCommand` models
`PitchCommand in synth.supportedCommands`. -/
structure Synth where
  name : String
  supportsPitchCommand : Bool
  deriving DecidableEq, Repr

/-- Modelled from the spec: the host's per-voice speech configuration
(`config.conf["speech"][synth.name]`), the capitalization-cue toggles. -/
structure SynthSpeechConfig where
  capPitchChange : Int
  sayCapForCapitals : Bool
  beepForCapitals : Bool
  deriving DecidableEq, Repr

/-- Modelled from the spec: the host's canonical single-character
capital-notification builder (`speech._getSpellingCharAddCapNotification`):
a pitch-shift-before / pitch-restore-after pair of directives wrapping the
spoken character when a nonzero pitch delta applies, a tone cue when the
beep flag is set, and a leading spoken "cap " when the say-cap flag is set. -/
def _getSpellingCharAddCapNotification (speakCharAs : String)
    (sayCapForCapitals : Bool) (capPitchChange : Int) (beepForCapitals : Bool) :
    List SpeechSegment :=
  (if capPitchChange ≠ 0 then [SpeechSegment.pitchCommand capPitchChange] else []) ++
  (if beepForCapitals then [SpeechSegment.beepCommand] else []) ++
  (if sayCapForCapitals then [SpeechSegment.text "cap "] else []) ++
  [SpeechSegment.text speakCharAs] ++
  (if capPitchChange ≠ 0 then [SpeechSegment.pitchReset] else [])

/-- `_getSingleCharSelectionSpeech` from the source.  The host primitives are
passed explicitly: `proc` is `characterProcessing.processSpeechSymbol`
(locale, char), `synth` is the result of `getSynth()`, and `conf` is the
`config.conf["speech"]` table keyed by synthesizer name.  A `none` template
defaults to the translated `"%s selected"`. -/
def _getSingleCharSelectionSpeech (proc : String → String → String)
    (synth : Option Synth) (conf : String → SynthSpeechConfig)
    (char : String) (locale : String) (messageTemplate : Option String) :
    List SpeechSegment :=
  let messageTemplate := messageTemplate.getD "%s selected"
  match synth with
  | none =>
    let speakCharAs := proc locale char
    _buildSpeechFromTemplate messageTemplate [SpeechSegment.text speakCharAs]
  | some synth =>
    let synthConfig := conf synth.name
    let capPitchChange : Int :=
      if synth.supportsPitchCommand then synthConfig.capPitchChange else 0
    let sayCapForCapitals := synthConfig.sayCapForCapitals
    let beepForCapitals := synthConfig.beepForCapitals
    let speakCharAs := proc locale char
    let uppercase := pyIsUpper char
    let charSequence :=
      _getSpellingCharAddCapNotification speakCharAs
        (uppercase && sayCapForCapitals)
        (if uppercase then capPitchChange else 0)
        (uppercase && beepForCapitals)
    _buildSpeechFromTemplate messageTemplate charSequence

/-- An observable speech emission of the patched announcer: a call to
`speech.speak`, `speech.speakTextSelected`, `speech.speakSelectionMessage`,
or `speech.speakMessage`. -/
inductive SpeechOut where
  | sequence (seq : List SpeechSegment)
  | textSelected (text : String)
  | selectionMessage (template : String) (text : String)
  | message (text : String)
  deriving DecidableEq, Repr

/-- `_speakSingleCharSelected` from the source, returning the emitted speech
instead of performing it; an empty sequence is silently skipped. -/
def _speakSingleCharSelected (proc : String → String → String)
    (synth : Option Synth) (conf : String → SynthSpeechConfig)
    (char : String) (locale : String) : List SpeechOut :=
  let seq := _getSingleCharSelectionSpeech proc synth conf char locale none
  if seq.isEmpty then [] else [SpeechOut.sequence seq]

/-- `_speakSingleCharUnselected` from the source, returning the emitted
speech; uses the translated `"%s unselected"` template. -/
def _speakSingleCharUnselected (proc : String → String → String)
    (synth : Option Synth) (conf : String → SynthSpeechConfig)
    (char : String) (locale : String) : List SpeechOut :=
  let seq := _getSingleCharSelectionSpeech proc synth conf char locale
    (some "%s unselected")
  if seq.isEmpty then [] else [SpeechOut.sequence seq]

/-- Modelled from the spec: the host's text-position interval over a
document, as an offset pair into the document's characters.  `stop` embeds
the interval's end offset (`end` is a Lean keyword). -/
structure TextInfo where
  doc : List Char
  start : Nat
  stop : Nat
  deriving DecidableEq, Repr

/-- Which endpoints an interval comparison or clamp refers to
(self endpoint vs other endpoint). -/
inductive EndPoint where
  | startToStart
  | startToEnd
  | endToStart
  | endToEnd
  deriving DecidableEq, Repr

/-- The interval is collapsed (a caret, zero length). -/
def TextInfo.isCollapsed (i : TextInfo) : Prop := i.start = i.stop

instance (i : TextInfo) : Decidable i.isCollapsed :=
  inferInstanceAs (Decidable (i.start = i.stop))

/-- `compareEndPoints`: the signed comparison of an endpoint of `self`
against an endpoint of `other` (negative / zero / positive). -/
def TextInfo.compareEndPoints (self other : TextInfo) : EndPoint → Int
  | .startToStart => (self.start : Int) - other.start
  | .startToEnd => (self.start : Int) - other.stop
  | .endToStart => (self.stop : Int) - other.start
  | .endToEnd => (self.stop : Int) - other.stop

/-- `copy`: a fresh interval with the same document and endpoints. -/
def TextInfo.copy (i : TextInfo) : TextInfo := i

/-- `setEndPoint(other, which)`: clamp one endpoint of `self` to the
corresponding endpoint of `other` (`endToStart` sets self's end to other's
start, `startToEnd` sets self's start to other's end, and so on). -/
def TextInfo.setEndPoint (self other : TextInfo) : EndPoint → TextInfo
  | .startToStart => { self with start := other.start }
  | .startToEnd => { self with start := other.stop }
  | .endToStart => { self with stop := other.start }
  | .endToEnd => { self with stop := other.stop }

/-- The text covered by the interval: the document characters from `start`
(inclusive) to `stop` (exclusive). -/
def TextInfo.text (i : TextInfo) : String :=
  String.mk ((i.doc.drop i.start).take (i.stop - i.start))

/-- The span-diff phase of `_patchedSpeakSelectionChange` (source lines
160-194): from the previous interval `oldInfo` and the current interval
`newInfo`, the lists of newly-selected and newly-unselected text spans.
The early return for two collapsed intervals yields empty lists. -/
def selectionDiff (oldInfo newInfo : TextInfo)
    (speakSelected speakUnselected : Bool) : List String × List String :=
  if newInfo.isCollapsed ∧ oldInfo.isCollapsed then ([], [])
  else
    let startToStart := newInfo.compareEndPoints oldInfo .startToStart
    let startToEnd := newInfo.compareEndPoints oldInfo .startToEnd
    let endToStart := newInfo.compareEndPoints oldInfo .endToStart
    let endToEnd := newInfo.compareEndPoints oldInfo .endToEnd
    if speakSelected ∧ oldInfo.isCollapsed then ([newInfo.text], [])
    else if speakUnselected ∧ newInfo.isCollapsed then ([], [oldInfo.text])
    else if startToEnd > 0 ∨ endToStart < 0 then
      ((if speakSelected ∧ ¬newInfo.isCollapsed then [newInfo.text] else []),
       (if speakUnselected ∧ ¬oldInfo.isCollapsed then [oldInfo.text] else []))
    else
      let sel₁ :=
        if speakSelected ∧ startToStart < 0 ∧ ¬newInfo.isCollapsed then
          [(newInfo.copy.setEndPoint oldInfo .endToStart).text] else []
      let sel₂ :=
        if speakSelected ∧ endToEnd > 0 ∧ ¬newInfo.isCollapsed then
          [(newInfo.copy.setEndPoint oldInfo .startToEnd).text] else []
      let unsel₁ :=
        if startToStart > 0 ∧ ¬oldInfo.isCollapsed then
          [(oldInfo.copy.setEndPoint newInfo .endToStart).text] else []
      let unsel₂ :=
        if endToEnd < 0 ∧ ¬oldInfo.isCollapsed then
          [(oldInfo.copy.setEndPoint newInfo .startToEnd).text] else []
      (sel₁ ++ sel₂, unsel₁ ++ unsel₂)

/-- `_patchedSpeakSelectionChange` from the source, returning the list of
speech emissions it performs (in order) instead of speaking.  The host
primitives `proc` (symbol rendering), `synth` (active synthesizer), `conf`
(per-voice configuration) and `locale` (`speech.getCurrentLanguage()`) are
explicit parameters. -/
def _patchedSpeakSelectionChange (proc : String → String → String)
    (synth : Option Synth) (conf : String → SynthSpeechConfig) (locale : String)
    (oldInfo newInfo : TextInfo)
    (speakSelected speakUnselected generalize : Bool) : List SpeechOut :=
  if newInfo.isCollapsed ∧ oldInfo.isCollapsed then []
  else
    let lists := selectionDiff oldInfo newInfo speakSelected speakUnselected
    let selectedTextList := lists.1
    let unselectedTextList := lists.2
    let selOut : List SpeechOut :=
      if speakSelected then
        if ¬generalize then
          selectedTextList.flatMap fun text =>
            if text.length = 1 then
              _speakSingleCharSelected proc synth conf text locale
            else [SpeechOut.textSelected text]
        else if selectedTextList.length > 0 then
          let text := newInfo.text
          if text.length = 1 then
            _speakSingleCharSelected proc synth conf text locale
          else [SpeechOut.textSelected text]
        else []
      else []
    let unselOut : List SpeechOut :=
      if speakUnselected then
        if ¬generalize then
          unselectedTextList.flatMap fun text =>
            if text.length = 1 then
              _speakSingleCharUnselected proc synth conf text locale
            else [SpeechOut.selectionMessage "%s unselected" text]
        else if unselectedTextList.length > 0 then
          if ¬newInfo.isCollapsed then
            let text := newInfo.text
            if text.length = 1 then
              _speakSingleCharUnselected proc synth conf text locale
            else [SpeechOut.selectionMessage "%s selected instead" text]
          else [SpeechOut.message "selection removed"]
        else []
      else []
    selOut ++ unselOut

/-- The process-wide dispatch state touched by the plugin lifecycle:
the host's `speech.speakSelectionChange` slot and the module-level
`_originalSpeakSelectionChange` reference.  `F` is the type of the values
held in the dispatch slot (functions, in the host). -/
structure PluginState (F : Type) where
  speakSelectionChange : F
  originalRef : Option F
  deriving DecidableEq, Repr

/-- `GlobalPlugin.__init__`: save the current entry point into the global
reference and install `patched` in its place. -/
def GlobalPlugin.install {F : Type} (patched : F) (s : PluginState F) :
    PluginState F :=
  { speakSelectionChange := patched, originalRef := some s.speakSelectionChange }

/-- `GlobalPlugin.terminate`: when an original was captured, restore it and
clear the reference; otherwise leave the state unchanged. -/
def GlobalPlugin.terminate {F : Type} (s : PluginState F) : PluginState F :=
  match s.originalRef with
  | some orig => { speakSelectionChange := orig, originalRef := none }
  | none => s

/-! ## Supporting lemmas -/

theorem listStartsWith_append (sep : List Char) :
    ∀ l : List Char, listStartsWith l sep = true → l = sep ++ l.drop sep.length := by
  induction sep with
  | nil => intro l _; simp
  | cons d ds ih =>
    intro l h
    cases l with
    | nil => simp [listStartsWith] at h
    | cons c cs =>
      simp only [listStartsWith, Bool.and_eq_true, beq_iff_eq] at h
      obtain ⟨rfl, hrest⟩ := h
      simpa using ih cs hrest

theorem findSub_decomp (sep : List Char) :
    ∀ t b a : List Char, findSub t sep = some (b, a) → t = b ++ sep ++ a := by
  intro t
  induction t with
  | nil =>
    intro b a h
    rw [findSub] at h
    split at h
    · next hsep =>
      simp only [Option.some.injEq, Prod.mk.injEq] at h
      obtain ⟨rfl, rfl⟩ := h
      simp [List.isEmpty_iff.mp hsep]
    · exact absurd h (by simp)
  | cons c cs ih =>
    intro b a h
    rw [findSub] at h
    split at h
    · next hp =>
      simp only [Option.some.injEq, Prod.mk.injEq] at h
      obtain ⟨rfl, rfl⟩ := h
      simpa using listStartsWith_append sep (c :: cs) hp
    · next hp =>
      cases hf : findSub cs sep with
      | none => rw [hf] at h; exact absurd h (by simp)
      | some p =>
        obtain ⟨b', a'⟩ := p
        rw [hf] at h
        simp only [Option.some.injEq, Prod.mk.injEq] at h
        obtain ⟨rfl, rfl⟩ := h
        simpa using ih b' _ hf

theorem sequenceText_build (T : String) (b a : List Char)
    (hba : findSub T.data "%s".data = some (b, a)) (seq : List SpeechSegment) :
    sequenceText (_buildSpeechFromTemplate T seq) = b ++ sequenceText seq ++ a := by
  rw [_buildSpeechFromTemplate, hba]
  by_cases hb : b.isEmpty <;> by_cases ha : a.isEmpty <;>
    simp_all [List.isEmpty_iff, sequenceText, SpeechSegment.spokenChars]

theorem build_all_text (T : String) (seq : List SpeechSegment)
    (h : seq.all SpeechSegment.isText = true) :
    (_buildSpeechFromTemplate T seq).all SpeechSegment.isText = true := by
  rw [_buildSpeechFromTemplate]
  cases hf : findSub T.data "%s".data with
  | none => simp_all [SpeechSegment.isText]
  | some p =>
    obtain ⟨b, a⟩ := p
    by_cases hb : b.isEmpty <;> by_cases ha : a.isEmpty <;>
      simp_all [SpeechSegment.isText]

/-! ## Claim theorems -/

/-- C7: template substitution round trip.  For every template `T` containing
a `%s` placeholder and every single-string sequence `[s]`, the spoken text
of `_buildSpeechFromTemplate T [s]` is `T` with the (first) `%s` replaced by
`s`; substituting the literal `"%s"` back reproduces `T` verbatim. -/
theorem buildSpeechFromTemplate_round_trip (T s : String)
    (h : containsSub T "%s" = true) :
    (∃ b a, T.data = b ++ "%s".data ++ a ∧
      sequenceText (_buildSpeechFromTemplate T [SpeechSegment.text s]) =
        b ++ s.data ++ a) ∧
    sequenceText (_buildSpeechFromTemplate T [SpeechSegment.text "%s"]) =
      T.data := by
  rw [containsSub, Option.isSome_iff_exists] at h
  obtain ⟨⟨b, a⟩, hba⟩ := h
  have hdecomp := findSub_decomp "%s".data T.data b a hba
  have key : ∀ u : String,
      sequenceText (_buildSpeechFromTemplate T [SpeechSegment.text u]) =
        b ++ u.data ++ a := by
    intro u
    rw [sequenceText_build T b a hba]
    simp [sequenceText, SpeechSegment.spokenChars]
  refine ⟨⟨b, a, by simpa using hdecomp, key s⟩, ?_⟩
  rw [key "%s"]
  simpa using hdecomp.symm

/-- C7 witness: the round trip evaluated on the concrete template
`"%s selected"`. -/
theorem buildSpeechFromTemplate_round_trip_witness :
    containsSub "%s selected" "%s" = true ∧
    sequenceText (_buildSpeechFromTemplate "%s selected"
      [SpeechSegment.text "%s"]) = "%s selected".data :=
  ⟨by decide, (buildSpeechFromTemplate_round_trip "%s selected" "A" (by decide)).2⟩

/-- C8: with no active synthesizer, single-character selection speech is the
plain rendered character spliced into the message template; it never reads
the per-voice configuration (any two configuration tables give the same
output) and contains no control directive (every segment is plain text). -/
theorem no_synth_plain_fallback (proc : String → String → String)
    (conf conf₂ : String → SynthSpeechConfig) (char locale : String)
    (mt : Option String) :
    _getSingleCharSelectionSpeech proc none conf char locale mt =
      _buildSpeechFromTemplate (mt.getD "%s selected")
        [SpeechSegment.text (proc locale char)] ∧
    _getSingleCharSelectionSpeech proc none conf char locale mt =
      _getSingleCharSelectionSpeech proc none conf₂ char locale mt ∧
    (_getSingleCharSelectionSpeech proc none conf char locale mt).all
      SpeechSegment.isText = true := by
  refine ⟨rfl, rfl, ?_⟩
  exact build_all_text _ _ (by simp [SpeechSegment.isText])

/-- C10: for a non-uppercase character with a synthesizer active, the output
is the cap-notification of the rendered character with all three cues forced
off, hence independent of the per-voice capitalization settings: any two
configuration tables produce identical output. -/
theorem non_upper_independent_of_cap_settings (proc : String → String → String)
    (synth : Synth) (conf conf₂ : String → SynthSpeechConfig)
    (char locale : String) (mt : Option String)
    (h : pyIsUpper char = false) :
    _getSingleCharSelectionSpeech proc (some synth) conf char locale mt =
      _buildSpeechFromTemplate (mt.getD "%s selected")
        (_getSpellingCharAddCapNotification (proc locale char) false 0 false) ∧
    _getSingleCharSelectionSpeech proc (some synth) conf char locale mt =
      _getSingleCharSelectionSpeech proc (some synth) conf₂ char locale mt := by
  have key : ∀ c : String → SynthSpeechConfig,
      _getSingleCharSelectionSpeech proc (some synth) c char locale mt =
        _buildSpeechFromTemplate (mt.getD "%s selected")
          (_getSpellingCharAddCapNotification (proc locale char) false 0 false) := by
    intro c
    simp [_getSingleCharSelectionSpeech, h]
  exact ⟨key conf, (key conf).trans (key conf₂).symm⟩

/-- C10 witness: the lowercase character `"b"` gives the same speech under
two synthesizer configurations that differ in all three capital-cue
settings. -/
theorem non_upper_independent_of_cap_settings_witness :
    pyIsUpper "b" = false ∧
    _getSingleCharSelectionSpeech (fun _ c => c) (some ⟨"syn", true⟩)
        (fun _ => ⟨5, true, true⟩) "b" "en" none =
      _getSingleCharSelectionSpeech (fun _ c => c) (some ⟨"syn", true⟩)
        (fun _ => ⟨0, false, false⟩) "b" "en" none :=
  ⟨by decide,
   (non_upper_independent_of_cap_settings (fun _ c => c) ⟨"syn", true⟩
     (fun _ => ⟨5, true, true⟩) (fun _ => ⟨0, false, false⟩) "b" "en" none
     (by decide)).2⟩

/-- C5: a single selected uppercase `"A"` with a synthesizer active,
say-cap enabled, beep disabled, and pitch commands unsupported yields the
cap-notification-wrapped character spliced into `"%s selected"`: a leading
"cap " marker segment, then `"A"`, then the text `" selected"`. -/
theorem single_upper_sayCap_selected_speech (proc : String → String → String)
    (synth : Synth) (conf : String → SynthSpeechConfig) (locale : String)
    (hpitch : synth.supportsPitchCommand = false)
    (hcap : (conf synth.name).sayCapForCapitals = true)
    (hbeep : (conf synth.name).beepForCapitals = false)
    (hproc : proc locale "A" = "A") :
    _getSingleCharSelectionSpeech proc (some synth) conf "A" locale none =
      [SpeechSegment.text "cap ", SpeechSegment.text "A",
       SpeechSegment.text " selected"] := by
  simp only [_getSingleCharSelectionSpeech, hpitch, hcap, hbeep, hproc,
    Bool.false_eq_true, if_false, ite_self]
  decide

/-- C5 witness: the theorem evaluated at a concrete synthesizer and
configuration table. -/
theorem single_upper_sayCap_selected_speech_witness :
    _getSingleCharSelectionSpeech (fun _ c => c) (some ⟨"syn", false⟩)
        (fun _ => ⟨0, true, false⟩) "A" "en" none =
      [SpeechSegment.text "cap ", SpeechSegment.text "A",
       SpeechSegment.text " selected"] :=
  single_upper_sayCap_selected_speech (fun _ c => c) ⟨"syn", false⟩
    (fun _ => ⟨0, true, false⟩) "en" rfl rfl rfl rfl

/-- C6: a single unselected lowercase `"b"` with a synthesizer active and
all capitalization cues disabled emits exactly one speak call whose
sequence is the plain phrase `"b unselected"`: only text segments, no
control directives, spelling out `"b unselected"`. -/
theorem single_lower_all_cues_disabled_unselected (proc : String → String → String)
    (synth : Synth) (conf : String → SynthSpeechConfig) (locale : String)
    (hcap : (conf synth.name).sayCapForCapitals = false)
    (hbeep : (conf synth.name).beepForCapitals = false)
    (hpitch : (conf synth.name).capPitchChange = 0)
    (hproc : proc locale "b" = "b") :
    _speakSingleCharUnselected proc (some synth) conf "b" locale =
      [SpeechOut.sequence
        [SpeechSegment.text "b", SpeechSegment.text " unselected"]] ∧
    sequenceText (_getSingleCharSelectionSpeech proc (some synth) conf "b"
      locale (some "%s unselected")) = "b unselected".data ∧
    (_getSingleCharSelectionSpeech proc (some synth) conf "b" locale
      (some "%s unselected")).all SpeechSegment.isText = true := by
  have hseq : _getSingleCharSelectionSpeech proc (some synth) conf "b" locale
      (some "%s unselected") =
      [SpeechSegment.text "b", SpeechSegment.text " unselected"] := by
    simp only [_getSingleCharSelectionSpeech, hcap, hbeep, hpitch, hproc,
      ite_self]
    decide
  refine ⟨?_, by rw [hseq]; decide, by rw [hseq]; decide⟩
  rw [_speakSingleCharUnselected, hseq]
  decide

/-- C6 witness: the theorem evaluated at a concrete synthesizer and
configuration table. -/
theorem single_lower_all_cues_disabled_unselected_witness :
    _speakSingleCharUnselected (fun _ c => c) (some ⟨"syn", true⟩)
        (fun _ => ⟨0, false, false⟩) "b" "en" =
      [SpeechOut.sequence
        [SpeechSegment.text "b", SpeechSegment.text " unselected"]] :=
  (single_lower_all_cues_disabled_unselected (fun _ c => c) ⟨"syn", true⟩
    (fun _ => ⟨0, false, false⟩) "en" rfl rfl rfl rfl).1

/-- C1: for non-overlapping, non-collapsed intervals (the current interval
entirely after or entirely before the previous one), with both speak flags
enabled, the diff yields exactly one selected span (the whole text of the
current interval) and exactly one unselected span (the whole text of the
previous interval). -/
theorem selectionDiff_nonoverlap_full_replacement (oldInfo newInfo : TextInfo)
    (hP : ¬ oldInfo.isCollapsed) (hC : ¬ newInfo.isCollapsed)
    (hsep : oldInfo.stop < newInfo.start ∨ newInfo.stop < oldInfo.start) :
    selectionDiff oldInfo newInfo true true =
      ([newInfo.text], [oldInfo.text]) := by
  simp only [TextInfo.isCollapsed] at hP hC
  simp only [selectionDiff, TextInfo.compareEndPoints, TextInfo.isCollapsed]
  split_ifs <;> first | rfl | omega | simp_all

/-- C1 witness: the previous interval `[0,1)` and current interval `[2,3)`
over the document `"abcde"`. -/
theorem selectionDiff_nonoverlap_full_replacement_witness :
    selectionDiff ⟨"abcde".data, 0, 1⟩ ⟨"abcde".data, 2, 3⟩ true true =
      (["c"], ["a"]) :=
  (selectionDiff_nonoverlap_full_replacement ⟨"abcde".data, 0, 1⟩
    ⟨"abcde".data, 2, 3⟩ (by decide) (by decide) (Or.inl (by decide))).trans
    (by decide)

/-- C2: for proper intervals where the current interval strictly extends the
previous one on both sides, with both speak flags enabled, the diff yields
exactly two selected spans — the part of the current interval before the
previous start and the part after the previous end — and no unselected
span. -/
theorem selectionDiff_extends_both_sides (oldInfo newInfo : TextInfo)
    (hPwf : oldInfo.start < oldInfo.stop)
    (hs : newInfo.start < oldInfo.start) (he : oldInfo.stop < newInfo.stop) :
    selectionDiff oldInfo newInfo true true =
      ([String.mk ((newInfo.doc.drop newInfo.start).take
          (oldInfo.start - newInfo.start)),
        String.mk ((newInfo.doc.drop oldInfo.stop).take
          (newInfo.stop - oldInfo.stop))], []) := by
  simp only [selectionDiff, TextInfo.compareEndPoints, TextInfo.isCollapsed,
    TextInfo.copy, TextInfo.setEndPoint, TextInfo.text]
  split_ifs <;> first | rfl | omega | simp_all

/-- C2 witness: the spec's example, previous interval `[3,4)` and current
interval `[2,5)` over the document `"abcde"`. -/
theorem selectionDiff_extends_both_sides_witness :
    selectionDiff ⟨"abcde".data, 3, 4⟩ ⟨"abcde".data, 2, 5⟩ true true =
      (["c", "e"], []) :=
  (selectionDiff_extends_both_sides ⟨"abcde".data, 3, 4⟩ ⟨"abcde".data, 2, 5⟩
    (by decide) (by decide) (by decide)).trans (by decide)

/-- C3: when the previous and current intervals are both collapsed, the diff
yields empty selected and unselected lists and the patched announcer emits
no speech at all, whatever the flags, synthesizer and configuration. -/
theorem both_collapsed_silent (oldInfo newInfo : TextInfo)
    (hP : oldInfo.isCollapsed) (hC : newInfo.isCollapsed) :
    (∀ speakSelected speakUnselected : Bool,
      selectionDiff oldInfo newInfo speakSelected speakUnselected = ([], [])) ∧
    (∀ (proc : String → String → String) (synth : Option Synth)
      (conf : String → SynthSpeechConfig) (locale : String)
      (speakSelected speakUnselected generalize : Bool),
      _patchedSpeakSelectionChange proc synth conf locale oldInfo newInfo
        speakSelected speakUnselected generalize = []) := by
  constructor
  · intro speakSelected speakUnselected
    simp [selectionDiff, hP, hC]
  · intro proc synth conf locale speakSelected speakUnselected generalize
    simp [_patchedSpeakSelectionChange, hP, hC]

/-- C3 witness: two collapsed carets over the document `"abcde"`. -/
theorem both_collapsed_silent_witness :
    selectionDiff ⟨"abcde".data, 1, 1⟩ ⟨"abcde".data, 3, 3⟩ true true =
      ([], []) ∧
    _patchedSpeakSelectionChange (fun _ c => c) none (fun _ => ⟨0, false, false⟩)
      "en" ⟨"abcde".data, 1, 1⟩ ⟨"abcde".data, 3, 3⟩ true true false = [] :=
  ⟨(both_collapsed_silent ⟨"abcde".data, 1, 1⟩ ⟨"abcde".data, 3, 3⟩
      rfl rfl).1 true true,
   (both_collapsed_silent ⟨"abcde".data, 1, 1⟩ ⟨"abcde".data, 3, 3⟩
      rfl rfl).2 (fun _ c => c) none (fun _ => ⟨0, false, false⟩) "en"
      true true false⟩

/-- C4: in generalize mode, replacing the selection `"a"` (interval `[0,1)`)
by the single character `"c"` (interval `[2,3)`) in the document `"abc"`
makes the code announce the new character through the `"%s unselected"`
template (the second emission below ends in `" unselected"; the design calls
for `"%s selected instead"` in this replacement case). -/
theorem generalize_replacement_single_char_divergence :
    _patchedSpeakSelectionChange (fun _ c => c) none (fun _ => ⟨0, false, false⟩)
      "en" ⟨"abc".data, 0, 1⟩ ⟨"abc".data, 2, 3⟩ true true true =
      [SpeechOut.sequence
        [SpeechSegment.text "c", SpeechSegment.text " selected"],
       SpeechOut.sequence
        [SpeechSegment.text "c", SpeechSegment.text " unselected"]] := by
  decide

/-- C9: deactivation restores the original entry point and clears the saved
reference when one is held; it is a no-op when none is held; hence it is
idempotent, and terminating right after installing restores the state that
was installed over. -/
theorem terminate_restores_and_idempotent {F : Type} (s : PluginState F) :
    (∀ o : F, s.originalRef = some o →
      GlobalPlugin.terminate s =
        { speakSelectionChange := o, originalRef := none }) ∧
    (s.originalRef = none → GlobalPlugin.terminate s = s) ∧
    GlobalPlugin.terminate (GlobalPlugin.terminate s) =
      GlobalPlugin.terminate s ∧
    (∀ patched : F, GlobalPlugin.terminate (GlobalPlugin.install patched s) =
      { speakSelectionChange := s.speakSelectionChange, originalRef := none }) := by
  obtain ⟨f, oref⟩ := s
  cases oref <;>
    simp [GlobalPlugin.terminate, GlobalPlugin.install]

/-- C9 witness: the theorem evaluated on concrete dispatch states over
`Nat`-labelled entry points. -/
theorem terminate_restores_and_idempotent_witness :
    GlobalPlugin.terminate (⟨0, some 1⟩ : PluginState Nat) = ⟨1, none⟩ ∧
    GlobalPlugin.terminate (⟨2, none⟩ : PluginState Nat) = ⟨2, none⟩ :=
  ⟨(terminate_restores_and_idempotent (⟨0, some 1⟩ : PluginState Nat)).1 1 rfl,
   (terminate_restores_and_idempotent (⟨2, none⟩ : PluginState Nat)).2.1 rfl⟩

end CapSel
